import Mathlib

/-!
Shallow embedding of `src/arbitrage.py` (Kalshi event-arbitrage trader):
price aggregation (`compute_sum`), the pre-trade guard (`orderable`),
the threshold derivation and leg-by-leg execution in `check_event`,
and the outer polling loop of `main`.

External collaborators (market-data fetch, balance service, order service)
are modelled as explicit inputs: the market-data response as a `Payload`
value, the balance as an integer argument, and order submission as an
oracle `Order → Option Int` returning the status code of the result,
or `none` when no result is returned.
-/

namespace Arbitrage

/-- The `yes`/`no` side selector (Python passes the strings `"yes"`/`"no"`;
only these two values are ever used). -/
inductive Side where
  | yes
  | no
deriving DecidableEq, Repr

/-- The `ask`/`bid` field selector (Python passes `"ask"`/`"bid"`). -/
inductive AskBid where
  | ask
  | bid
deriving DecidableEq, Repr

/-- One market record as returned by the Market Data Service: ticker,
lifecycle status string, and the four integer cent prices
`yes_ask`, `yes_bid`, `no_ask`, `no_bid`. -/
structure Market where
  ticker : String
  status : String
  yes_ask : Int
  yes_bid : Int
  no_ask : Int
  no_bid : Int
deriving DecidableEq, Repr

/-- `market[f"{side}_{ask_or_bid}"]`: dictionary lookup of the price field
named by the side and ask-or-bid selectors. -/
def Market.price (m : Market) (side : Side) (aob : AskBid) : Int :=
  match side, aob with
  | Side.yes, AskBid.ask => m.yes_ask
  | Side.yes, AskBid.bid => m.yes_bid
  | Side.no, AskBid.ask => m.no_ask
  | Side.no, AskBid.bid => m.no_bid

/-- `compute_sum(markets, side, ask_or_bid)` (arbitrage.py lines 23-28):
`total = 0`, then `total += market[f"{side}_{ask_or_bid}"]` for each
market in order. -/
def compute_sum (markets : List Market) (side : Side) (aob : AskBid) : Int :=
  markets.foldl (fun total market => total + market.price side aob) 0

/-- The per-market body of the `for market in markets` loop of
`orderable` (arbitrage.py lines 37-64); `true` means the loop body falls
through to the next market, `false` means the loop body hits a
`return False`.  `nMarkets` is `len(markets)` of the full list and
`balance` the value `api.get_balance()` returned at line 35. -/
def marketPasses (nMarkets : Int) (side : Side) (action : String)
    (min_balance balance : Int) (m : Market) : Bool :=
  if m.status ≠ "active" then
    false
  else if action = "buy" ∧ side = Side.yes ∧ balance ≤ 100 + min_balance then
    false
  else if action = "buy" ∧ side = Side.no ∧
      balance ≤ (nMarkets - 1) * 100 + min_balance then
    false
  else if action = "buy" then
    let price := m.price side AskBid.ask
    ¬(price ≤ 0 ∨ price = 100)
  else if action = "sell" then
    let price := m.price side AskBid.bid
    ¬(price ≤ 0 ∨ price = 100)
  else
    false

/-- `orderable(markets, side, action, min_balance)` (arbitrage.py lines
33-67): returns `False` at the first market failing a check, `True` when
every market passes.  The balance read by `api.get_balance()` is an
explicit argument. -/
def orderable (markets : List Market) (side : Side) (action : String)
    (min_balance balance : Int) : Bool :=
  markets.all (marketPasses markets.length side action min_balance balance)

/-! ### Threshold derivation (arbitrage.py lines 97-106)

Python `//` is floor division, `Int.fdiv` in Lean. -/

/-- `half_floor = margin // 2` (line 99). -/
def half_floor (margin : Int) : Int := Int.fdiv margin 2

/-- `half_ceil = margin - half_floor` (line 100). -/
def half_ceil (margin : Int) : Int := margin - half_floor margin

/-- `yes_ask_price = 100 - half_floor` (line 102). -/
def yes_ask_price (margin : Int) : Int := 100 - half_floor margin

/-- `yes_bid_price = 100 + half_ceil` (line 103). -/
def yes_bid_price (margin : Int) : Int := 100 + half_ceil margin

/-- `no_ask_price = 100 * (n - 1) - half_floor * (n - 1)` (line 105). -/
def no_ask_price (margin n : Int) : Int :=
  100 * (n - 1) - half_floor margin * (n - 1)

/-- `no_bid_price = 100 * (n - 1) + half_ceil * (n - 1)` (line 106). -/
def no_bid_price (margin n : Int) : Int :=
  100 * (n - 1) + half_ceil margin * (n - 1)

/-! ### Execution engine (arbitrage.py lines 108-155) -/

/-- One order as handed to `bet.place_bet(ticker, action, side, price)`.
Modelled from the spec: the Order Service collaborator accepts
`(market id, action, side, price)` with quantity fixed at 1; the
`bet` module is not part of the core source, so `quantity` is carried
here as the constant 1 the spec fixes. -/
structure Order where
  ticker : String
  action : String
  side : String
  price : Int
  quantity : Int
deriving DecidableEq, Repr

/-- `response is None or response.status_code >= 400` (line 117): the
submission of this leg failed. -/
def legFails (placeBet : Order → Option Int) (o : Order) : Bool :=
  match placeBet o with
  | none => true
  | some status => 400 ≤ status

/-- One `for market in markets` sweep of `check_event` (e.g. lines
113-120): read the relevant price field, skip the leg unless
`1 < price < 100`, otherwise submit and abort on failure.  Returns the
list of orders handed to `bet.place_bet` in call order, whether the
sweep aborted (the `return` at line 119), and the final value of the
`bet_attempted` flag. -/
def runSweep (placeBet : Order → Option Int) (action side : String)
    (field : Market → Int) (markets : List Market) (betAtt : Bool) :
    List Order × Bool × Bool :=
  match markets with
  | [] => ([], false, betAtt)
  | m :: rest =>
    let price := field m
    if 1 < price ∧ price < 100 then
      let o : Order := ⟨m.ticker, action, side, price, 1⟩
      if legFails placeBet o then
        ([o], true, betAtt)
      else
        let r := runSweep placeBet action side field rest true
        (o :: r.1, r.2.1, r.2.2)
    else
      runSweep placeBet action side field rest betAtt

/-- Outcome of the decision part of one `check_event` call on a good
payload: all orders handed to `bet.place_bet` across the cycle in call
order, whether the cycle ended in the early `return` of a failed leg,
and whether the `NO BET ATTEMPTED` message was printed. -/
structure CycleResult where
  orders : List Order
  aborted : Bool
  noBet : Bool
deriving DecidableEq, Repr

/-- Lines 90-155 of `check_event`: compute the four sums and thresholds,
then run the yes-side `if/elif` block and the no-side `if/elif` block in
sequence.  A sweep abort is the `return` that exits `check_event`
entirely, so it suppresses every later block and the final
`NO BET ATTEMPTED` print. -/
def check_decision (placeBet : Order → Option Int) (markets : List Market)
    (balance min_balance margin : Int) : CycleResult :=
  let sum_yes_buy := compute_sum markets Side.yes AskBid.ask
  let sum_yes_sell := compute_sum markets Side.yes AskBid.bid
  let sum_no_buy := compute_sum markets Side.no AskBid.ask
  let sum_no_sell := compute_sum markets Side.no AskBid.bid
  let n : Int := markets.length
  let yesStep : List Order × Bool × Bool :=
    if sum_yes_buy ≤ yes_ask_price margin ∧
        orderable markets Side.yes "buy" min_balance balance then
      runSweep placeBet "buy" "yes" Market.yes_ask markets false
    else if yes_bid_price margin ≤ sum_yes_sell ∧
        orderable markets Side.yes "sell" min_balance balance then
      runSweep placeBet "sell" "yes" Market.yes_bid markets false
    else
      ([], false, false)
  if yesStep.2.1 then
    ⟨yesStep.1, true, false⟩
  else
    let noStep : List Order × Bool × Bool :=
      if sum_no_buy ≤ no_ask_price margin n ∧
          orderable markets Side.no "buy" min_balance balance then
        runSweep placeBet "buy" "no" Market.no_ask markets yesStep.2.2
      else if no_bid_price margin n ≤ sum_no_sell ∧
          orderable markets Side.no "sell" min_balance balance then
        runSweep placeBet "sell" "no" Market.no_bid markets yesStep.2.2
      else
        ([], false, yesStep.2.2)
    if noStep.2.1 then
      ⟨yesStep.1 ++ noStep.1, true, false⟩
    else
      ⟨yesStep.1 ++ noStep.1, false, !noStep.2.2⟩

/-! ### The market-data payload and the safety check (lines 77-88) -/

/-- `c :: cs` begins with the pattern `p`. -/
def charsStart : List Char → List Char → Bool
  | _, [] => true
  | [], _ :: _ => false
  | c :: cs, p :: ps => c = p && charsStart cs ps

/-- Python substring containment `p in s` on character lists. -/
def charsHave : List Char → List Char → Bool
  | [], p => p.isEmpty
  | c :: cs, p => charsStart (c :: cs) p || charsHave cs p

/-- Python `pat in s` for strings. -/
def strHas (s pat : String) : Bool := charsHave s.data pat.data

/-- The JSON value `markets_response.json()` evaluates to: either a JSON
object (with or without a usable `"markets"` list) or a JSON string. -/
inductive Payload where
  | jobj (markets : Option (List Market))
  | jstr (s : String)
deriving Repr

/-- Observable outcome of one `check_event` call. -/
inductive CheckResult where
  /-- An uncaught `TypeError` escaped `check_event`. -/
  | crash
  /-- The line-81 safety check fired, the anomaly was printed and written
  to `trade_log.txt`, and `check_event` returned without ordering. -/
  | badLogged (entry : String)
  /-- The safety check passed and the decision pipeline ran. -/
  | ran (r : CycleResult)
deriving DecidableEq, Repr

/-- `check_event` (lines 70-155) given the parsed market-data payload.
Line 81 is Python `"markets" not in markets_data`: key lookup on a dict,
substring containment on a string.  Line 82 is
`"Bad market response: " + markets_data`, which raises `TypeError`
unless `markets_data` is itself a string; line 88
`markets_data['markets']` raises `TypeError` on a string payload. -/
def check_event (placeBet : Order → Option Int) (payload : Payload)
    (balance min_balance margin : Int) : CheckResult :=
  match payload with
  | Payload.jobj none => CheckResult.crash
  | Payload.jobj (some markets) =>
    CheckResult.ran (check_decision placeBet markets balance min_balance margin)
  | Payload.jstr s =>
    if strHas s "markets" then CheckResult.crash
    else CheckResult.badLogged ("Bad market response:" ++ s)

/-- One pass of the `for event in all_events` loop of `main` (lines
170-172), with each configured event's fetched payload given in order.
An uncaught exception in `check_event` propagates and kills the loop, so
later events are not processed. -/
def process_events (placeBet : Order → Option Int)
    (balance min_balance margin : Int) : List Payload → List CheckResult
  | [] => []
  | p :: rest =>
    match check_event placeBet p balance min_balance margin with
    | CheckResult.crash => [CheckResult.crash]
    | r => r :: process_events placeBet balance min_balance margin rest

/-! ### Concrete fixtures used by witnesses and counterexamples -/

/-- An active market quoted at yes-ask 32. -/
def mkA : Market := ⟨"A", "active", 32, 30, 60, 55⟩

/-- An active market quoted at yes-ask 33. -/
def mkB : Market := ⟨"B", "active", 33, 31, 61, 56⟩

/-- An active market quoted at yes-ask 32. -/
def mkC : Market := ⟨"C", "active", 32, 29, 62, 57⟩

/-- An active market quoted at the boundary price 1 on every field. -/
def mkOne : Market := ⟨"E", "active", 1, 1, 99, 99⟩

/-- A closed (non-active) market. -/
def mkClosed : Market := ⟨"P", "closed", 50, 50, 50, 50⟩

/-- An active market whose yes-ask is the degenerate price 100. -/
def mkDeg : Market := ⟨"D", "active", 100, 0, 50, 50⟩

/-- Order Service oracle that accepts every order with status 201. -/
def alwaysAccept : Order → Option Int := fun _ => some 201

/-- Order Service oracle that rejects every order with status 500. -/
def alwaysReject : Order → Option Int := fun _ => some 500

/-- Order Service oracle that rejects orders on ticker `"B"` with
status 500 and accepts everything else with status 201. -/
def failOnB : Order → Option Int :=
  fun o => if o.ticker = "B" then some 500 else some 201

/-! ### Claim theorems -/

/-- Claim C4: for every margin `m` with `0 ≤ m ≤ 100` and market count
`n ≥ 1`, the derived thresholds satisfy `half_floor = m div 2`,
`half_floor + half_ceil = m`, `yes_ask_trigger = 100 - half_floor`,
`yes_bid_trigger = 100 + half_ceil`,
`no_ask_trigger = (100 - half_floor)·(n-1) = yes_ask_trigger·(n-1)`,
`no_bid_trigger = (100 + half_ceil)·(n-1) = yes_bid_trigger·(n-1)`;
in particular margin 4 with n = 3 yields triggers 98, 102, 196, 204. -/
theorem threshold_relations (m n : Int) (hm0 : 0 ≤ m) (hm1 : m ≤ 100)
    (hn : 1 ≤ n) :
    half_floor m = m / 2 ∧
    half_floor m + half_ceil m = m ∧
    yes_ask_price m = 100 - half_floor m ∧
    yes_bid_price m = 100 + half_ceil m ∧
    no_ask_price m n = (100 - half_floor m) * (n - 1) ∧
    no_ask_price m n = yes_ask_price m * (n - 1) ∧
    no_bid_price m n = (100 + half_ceil m) * (n - 1) ∧
    no_bid_price m n = yes_bid_price m * (n - 1) ∧
    yes_ask_price 4 = 98 ∧ yes_bid_price 4 = 102 ∧
    no_ask_price 4 3 = 196 ∧ no_bid_price 4 3 = 204 := by
  refine ⟨Int.fdiv_eq_ediv m (by norm_num), ?_, rfl, rfl, ?_, ?_, ?_, ?_,
    by decide, by decide, by decide, by decide⟩
  · unfold half_ceil; ring
  · unfold no_ask_price; ring
  · unfold no_ask_price yes_ask_price; ring
  · unfold no_bid_price; ring
  · unfold no_bid_price yes_bid_price; ring

/-- Witness for C4 at margin 4, n = 3. -/
theorem threshold_relations_witness :
    half_floor 4 = 4 / 2 ∧
    half_floor 4 + half_ceil 4 = 4 ∧
    yes_ask_price 4 = 100 - half_floor 4 ∧
    yes_bid_price 4 = 100 + half_ceil 4 ∧
    no_ask_price 4 3 = (100 - half_floor 4) * (3 - 1) ∧
    no_ask_price 4 3 = yes_ask_price 4 * (3 - 1) ∧
    no_bid_price 4 3 = (100 + half_ceil 4) * (3 - 1) ∧
    no_bid_price 4 3 = yes_bid_price 4 * (3 - 1) ∧
    yes_ask_price 4 = 98 ∧ yes_bid_price 4 = 102 ∧
    no_ask_price 4 3 = 196 ∧ no_bid_price 4 3 = 204 :=
  threshold_relations 4 3 (by norm_num) (by norm_num) (by norm_num)

/-- Claim C6: a markets list containing a market whose status is not
`"active"` is never orderable, for every side, action, minimum balance
and balance. -/
theorem orderable_inactive_false (markets : List Market) (m : Market)
    (hm : m ∈ markets) (hs : m.status ≠ "active") (side : Side)
    (action : String) (min_balance balance : Int) :
    orderable markets side action min_balance balance = false := by
  rw [orderable, Bool.eq_false_iff]
  intro hall
  rw [List.all_eq_true] at hall
  have hp := hall m hm
  unfold marketPasses at hp
  rw [if_pos hs] at hp
  exact Bool.false_ne_true hp

/-- Witness for C6: one closed market. -/
theorem orderable_inactive_false_witness :
    orderable [mkClosed] Side.yes "buy" 0 1000 = false :=
  orderable_inactive_false [mkClosed] mkClosed (by decide) (by decide)
    Side.yes "buy" 0 1000

/-- Claim C7: a markets list containing a market whose relevant quoted price
(ask for a buy, bid for a sell) is `≤ 0` or exactly 100 is never
orderable. -/
theorem orderable_degenerate_price_false (markets : List Market)
    (side : Side) (action : String) (min_balance balance : Int)
    (m : Market) (hm : m ∈ markets)
    (hp : (action = "buy" ∧
            (m.price side AskBid.ask ≤ 0 ∨ m.price side AskBid.ask = 100)) ∨
          (action = "sell" ∧
            (m.price side AskBid.bid ≤ 0 ∨ m.price side AskBid.bid = 100))) :
    orderable markets side action min_balance balance = false := by
  rw [orderable, Bool.eq_false_iff]
  intro hall
  rw [List.all_eq_true] at hall
  have hpass := hall m hm
  unfold marketPasses at hpass
  rcases hp with ⟨ha, hbad⟩ | ⟨ha, hbad⟩ <;> subst ha <;>
    split at hpass <;> simp_all

/-- Witness for C7: one active market with yes-ask 100 on a buy. -/
theorem orderable_degenerate_price_false_witness :
    orderable [mkDeg] Side.yes "buy" 0 1000 = false :=
  orderable_degenerate_price_false [mkDeg] Side.yes "buy" 0 1000 mkDeg
    (by decide) (Or.inl ⟨rfl, Or.inr (by decide)⟩)

/-- Claim C8: for `action = sell` the guard never reads the balance — two runs
differing only in the balance returned by the Balance Service give the
same result, for every markets list, side and minimum balance. -/
theorem orderable_sell_ignores_balance (markets : List Market)
    (side : Side) (min_balance b1 b2 : Int) :
    orderable markets side "sell" min_balance b1 =
      orderable markets side "sell" min_balance b2 := by
  have h : marketPasses markets.length side "sell" min_balance b1 =
      marketPasses markets.length side "sell" min_balance b2 := by
    funext m
    unfold marketPasses
    have hsb : ¬(("sell" : String) = "buy") := by decide
    simp [hsb]
  rw [orderable, orderable, h]

/-- Claim C9: the aggregate sum is invariant under permutation of the markets
list, for every side and ask-or-bid selector. -/
theorem compute_sum_perm_invariant (l1 l2 : List Market) (h : l1.Perm l2)
    (side : Side) (aob : AskBid) :
    compute_sum l1 side aob = compute_sum l2 side aob := by
  have key : ∀ l : List Market,
      compute_sum l side aob = (l.map (fun m => m.price side aob)).sum := by
    intro l
    simp [compute_sum, List.sum_eq_foldl, List.foldl_map]
  rw [key, key]
  exact ((h.map _).sum_eq)

/-- Witness for C9: swapping a two-market list. -/
theorem compute_sum_perm_invariant_witness :
    compute_sum [mkA, mkB] Side.yes AskBid.ask =
      compute_sum [mkB, mkA] Side.yes AskBid.ask :=
  compute_sum_perm_invariant [mkA, mkB] [mkB, mkA]
    (List.Perm.swap mkB mkA []) Side.yes AskBid.ask

/-- The order built for market `m` at line 116: ticker, action, side,
the validated price field, quantity 1. -/
def mkOrder (action side : String) (field : Market → Int) (m : Market) :
    Order :=
  ⟨m.ticker, action, side, field m, 1⟩

/-- The line-115 guard `1 < price < 100` as a Boolean predicate on a
market. -/
def eligibleLeg (field : Market → Int) (m : Market) : Bool :=
  decide (1 < field m ∧ field m < 100)

theorem runSweep_cons_skip (pb : Order → Option Int) (action side : String)
    (field : Market → Int) (m : Market) (rest : List Market) (b : Bool)
    (h : ¬(1 < field m ∧ field m < 100)) :
    runSweep pb action side field (m :: rest) b =
      runSweep pb action side field rest b := by
  simp only [runSweep]
  rw [if_neg h]

theorem runSweep_cons_fail (pb : Order → Option Int) (action side : String)
    (field : Market → Int) (m : Market) (rest : List Market) (b : Bool)
    (h : 1 < field m ∧ field m < 100)
    (hf : legFails pb (mkOrder action side field m) = true) :
    runSweep pb action side field (m :: rest) b =
      ([mkOrder action side field m], true, b) := by
  simp only [runSweep]
  rw [if_pos h]
  simp only [mkOrder] at hf
  simp [hf, mkOrder]

theorem runSweep_cons_ok (pb : Order → Option Int) (action side : String)
    (field : Market → Int) (m : Market) (rest : List Market) (b : Bool)
    (h : 1 < field m ∧ field m < 100)
    (hok : legFails pb (mkOrder action side field m) = false) :
    runSweep pb action side field (m :: rest) b =
      (mkOrder action side field m ::
        (runSweep pb action side field rest true).1,
       (runSweep pb action side field rest true).2) := by
  simp only [runSweep]
  rw [if_pos h]
  simp only [mkOrder] at hok
  simp [hok, mkOrder]

/-- Claim C5: when every eligible leg's submission succeeds, the sweep submits
exactly one one-lot order per market whose price is strictly inside
`(1, 100)`, in iteration order, skips exactly the legs priced `≤ 1` or
`≥ 100`, and does not fail. -/
theorem sweep_submits_eligible_legs (pb : Order → Option Int)
    (action side : String) (field : Market → Int) (markets : List Market)
    (betAtt : Bool)
    (hok : ∀ m ∈ markets, (1 < field m ∧ field m < 100) →
        legFails pb (mkOrder action side field m) = false) :
    (runSweep pb action side field markets betAtt).1 =
      (markets.filter (eligibleLeg field)).map (mkOrder action side field) ∧
    (runSweep pb action side field markets betAtt).2.1 = false ∧
    ∀ o ∈ (runSweep pb action side field markets betAtt).1,
      o.quantity = 1 := by
  have main : ∀ (l : List Market) (b : Bool),
      (∀ m ∈ l, (1 < field m ∧ field m < 100) →
        legFails pb (mkOrder action side field m) = false) →
      (runSweep pb action side field l b).1 =
        (l.filter (eligibleLeg field)).map (mkOrder action side field) ∧
      (runSweep pb action side field l b).2.1 = false := by
    intro l
    induction l with
    | nil => exact fun b _ => ⟨rfl, rfl⟩
    | cons m rest ih =>
      intro b hok2
      have ihr := ih true (fun x hx h => hok2 x (List.mem_cons_of_mem m hx) h)
      by_cases h : 1 < field m ∧ field m < 100
      · have hm := hok2 m (List.mem_cons_self m rest) h
        rw [runSweep_cons_ok pb action side field m rest b h hm]
        have helig : eligibleLeg field m = true := by
          simp [eligibleLeg, h]
        rw [List.filter_cons_of_pos helig]
        exact ⟨by rw [List.map_cons, ihr.1], ihr.2⟩
      · have helig : ¬(eligibleLeg field m = true) := by
          simp [eligibleLeg, h]
        rw [runSweep_cons_skip pb action side field m rest b h,
          List.filter_cons_of_neg (by simpa using helig)]
        exact ih b (fun x hx hx2 => hok2 x (List.mem_cons_of_mem m hx) hx2)
  obtain ⟨h1, h2⟩ := main markets betAtt hok
  refine ⟨h1, h2, ?_⟩
  intro o ho
  rw [h1] at ho
  obtain ⟨m, -, rfl⟩ := List.mem_map.mp ho
  rfl

/-- Witness for C5: three active markets with ask prices 32, 33, 32 give
exactly three one-lot buy-yes orders in iteration order; inserting a
market quoted at price 1 leaves exactly the same three orders (the
price-1 leg is skipped). -/
theorem sweep_submits_eligible_legs_witness :
    ((runSweep alwaysAccept "buy" "yes" Market.yes_ask [mkA, mkB, mkC]
        false).1 =
      [mkOrder "buy" "yes" Market.yes_ask mkA,
       mkOrder "buy" "yes" Market.yes_ask mkB,
       mkOrder "buy" "yes" Market.yes_ask mkC] ∧
     (runSweep alwaysAccept "buy" "yes" Market.yes_ask [mkA, mkB, mkC]
        false).2.1 = false) ∧
    (runSweep alwaysAccept "buy" "yes" Market.yes_ask [mkA, mkOne, mkB, mkC]
        false).1 =
      [mkOrder "buy" "yes" Market.yes_ask mkA,
       mkOrder "buy" "yes" Market.yes_ask mkB,
       mkOrder "buy" "yes" Market.yes_ask mkC] := by
  have h3 := sweep_submits_eligible_legs alwaysAccept "buy" "yes"
    Market.yes_ask [mkA, mkB, mkC] false (by decide)
  have h4 := sweep_submits_eligible_legs alwaysAccept "buy" "yes"
    Market.yes_ask [mkA, mkOne, mkB, mkC] false (by decide)
  exact ⟨⟨h3.1.trans (by decide), h3.2.1⟩, h4.1.trans (by decide)⟩

/-- Claim C2: if every eligible leg before `fm` succeeds, `fm` is eligible and
its submission fails, then the sweep's call trace is exactly the orders
for the eligible earlier legs followed by the failed order — later
markets get no order, earlier legs stay submitted — and the sweep
reports failure. -/
theorem sweep_aborts_at_failed_leg (pb : Order → Option Int)
    (action side : String) (field : Market → Int)
    (pre : List Market) (fm : Market) (post : List Market) (betAtt : Bool)
    (hpre : ∀ m ∈ pre, (1 < field m ∧ field m < 100) →
        legFails pb (mkOrder action side field m) = false)
    (hfmElig : 1 < field fm ∧ field fm < 100)
    (hfail : legFails pb (mkOrder action side field fm) = true) :
    (runSweep pb action side field (pre ++ fm :: post) betAtt).1 =
      (pre.filter (eligibleLeg field)).map (mkOrder action side field) ++
        [mkOrder action side field fm] ∧
    (runSweep pb action side field (pre ++ fm :: post) betAtt).2.1 =
      true := by
  induction pre generalizing betAtt with
  | nil =>
    rw [List.nil_append,
      runSweep_cons_fail pb action side field fm post betAtt hfmElig hfail]
    exact ⟨rfl, rfl⟩
  | cons m rest ih =>
    have ihr := ih true (fun x hx h => hpre x (List.mem_cons_of_mem m hx) h)
    by_cases h : 1 < field m ∧ field m < 100
    · have hm := hpre m (List.mem_cons_self m rest) h
      rw [List.cons_append,
        runSweep_cons_ok pb action side field m (rest ++ fm :: post) betAtt
          h hm]
      have helig : eligibleLeg field m = true := by simp [eligibleLeg, h]
      rw [List.filter_cons_of_pos helig]
      exact ⟨by rw [List.map_cons, List.cons_append, ihr.1], ihr.2⟩
    · have helig : eligibleLeg field m ≠ true := by simp [eligibleLeg, h]
      rw [List.cons_append,
        runSweep_cons_skip pb action side field m (rest ++ fm :: post)
          betAtt h,
        List.filter_cons_of_neg (by simpa using helig)]
      exact ih betAtt (fun x hx hx2 => hpre x (List.mem_cons_of_mem m hx) hx2)

/-- Witness for C2: three legs where the second is rejected with status
500 — leg 1 is submitted, leg 2 is attempted, leg 3 never appears, and
the sweep reports failure. -/
theorem sweep_aborts_at_failed_leg_witness :
    (runSweep failOnB "buy" "yes" Market.yes_ask [mkA, mkB, mkC]
        false).1 =
      [mkOrder "buy" "yes" Market.yes_ask mkA,
       mkOrder "buy" "yes" Market.yes_ask mkB] ∧
    (runSweep failOnB "buy" "yes" Market.yes_ask [mkA, mkB, mkC]
        false).2.1 = true := by
  have h := sweep_aborts_at_failed_leg failOnB "buy" "yes" Market.yes_ask
    [mkA] mkB [mkC] false (by decide) (by decide) (by decide)
  exact ⟨h.1.trans (by decide), h.2⟩

/-- An active two-market event fixture: yes-asks 40 + 40 = 80 cross the
buy-yes trigger at margin 0, and no-bids 60 + 60 = 120 cross the sell-no
trigger. -/
def cm1 : Market := ⟨"X", "active", 40, 35, 65, 60⟩

/-- Second market of the two-market fixture. -/
def cm2 : Market := ⟨"Y", "active", 40, 35, 65, 60⟩

/-- Claim C1 (code bug): on a JSON-object payload without the expected
`"markets"` list, line 82 concatenates a string with a dict and raises
an uncaught `TypeError` — `check_event` crashes instead of logging, the
crash kills the polling pass, and the next configured event is not
processed.  Only a JSON-string payload reaches the log-and-return
path. -/
theorem bad_market_response_crashes :
    check_event alwaysAccept (Payload.jobj none) 1000 0 4 =
      CheckResult.crash ∧
    process_events alwaysAccept 1000 0 4
      [Payload.jobj none, Payload.jobj (some [mkA, mkB, mkC])] =
      [CheckResult.crash] ∧
    check_event alwaysAccept (Payload.jstr "err") 1000 0 4 =
      CheckResult.badLogged "Bad market response:err" := by
  refine ⟨rfl, rfl, ?_⟩
  decide

/-- Claim C3 counterexample: margin 0, two active markets, every order
rejected with status 500.  The sell-no conditions hold (sum of no-bids
120 ≥ trigger 100 and the event is orderable for sell-no), yet after the
first buy-yes leg fails the cycle ends with only that one yes-side
order: the leg failure did not abort only the current action's remaining
legs, and the no-side block never executed. -/
theorem yes_no_blocks_counterexample :
    ((check_decision alwaysReject [cm1, cm2] 1000 0 0).aborted = true ∧
     no_bid_price 0 2 ≤ compute_sum [cm1, cm2] Side.no AskBid.bid ∧
     orderable [cm1, cm2] Side.no "sell" 0 1000 = true) ∧
    (check_decision alwaysReject [cm1, cm2] 1000 0 0).orders =
      [⟨"X", "buy", "yes", 40, 1⟩] ∧
    ∀ o ∈ (check_decision alwaysReject [cm1, cm2] 1000 0 0).orders,
      o.side ≠ "no" := by
  decide

/-- Claim C3 amended: a leg failure exits the whole event check — it aborts
the remaining legs of the current action and also skips any later action
block of that event's cycle; when no leg fails, both blocks run in the
same cycle, and both a buy-yes sweep and a sell-no sweep can fire and
execute on the same event within the same poll cycle. -/
theorem yes_no_both_fire_same_cycle :
    ((check_decision alwaysAccept [cm1, cm2] 1000 0 0).orders =
      [⟨"X", "buy", "yes", 40, 1⟩, ⟨"Y", "buy", "yes", 40, 1⟩,
       ⟨"X", "sell", "no", 60, 1⟩, ⟨"Y", "sell", "no", 60, 1⟩] ∧
     (check_decision alwaysAccept [cm1, cm2] 1000 0 0).aborted = false) ∧
    ((check_decision alwaysReject [cm1, cm2] 1000 0 0).orders =
      [⟨"X", "buy", "yes", 40, 1⟩] ∧
     (check_decision alwaysReject [cm1, cm2] 1000 0 0).aborted = true) := by
  decide

/-- Claim C10: on the empty markets list the guard is vacuously true for every
side, every action string (also ones that are neither `"buy"` nor
`"sell"`), every minimum balance and every balance. -/
theorem orderable_empty_true (side : Side) (action : String)
    (min_balance balance : Int) :
    orderable [] side action min_balance balance = true := rfl

end Arbitrage
